import Mathlib

/-!
Verification development for the ai-photo-critic repository.

This file gives a shallow embedding of the algorithmic core of the
application — the aspect-ratio selection heuristic and the response
shape validation from `src/services/geminiService.ts`, the workflow
handlers of the main `App` component (image selection, analysis,
edit, re-analysis of the edited image), and the gesture state of
`src/components/ComparisonView.tsx` (zoom, pan, reveal slider) —
together with theorems about the embedded definitions.

Modelling conventions: JavaScript numbers are embedded as rationals
(`ℚ`); JavaScript strings as Lean `String` (with `List Char` for
substring scans); `async` handlers are split into a synchronous part
that may issue at most one external request, and a resolution
function applied when that request settles; parsed JSON is embedded
as an explicit `JValue` tree.
-/

/-- Does `needle` occur at the start of `hay`?  Mirrors the prefix test
underlying the JavaScript `String.prototype.includes` scan. -/
def leadsList : List Char → List Char → Bool
  | [], _ => true
  | _ :: _, [] => false
  | a :: as, b :: bs => a == b && leadsList as bs

/-- Does `needle` occur as a contiguous substring of `hay`?  Embeds the
JavaScript `combined.includes(token)` test used by `getBestAspectRatio`. -/
def occursIn (needle : List Char) : List Char → Bool
  | [] => needle.isEmpty
  | c :: t => leadsList needle (c :: t) || occursIn needle t

/-- One suggested edit of the analysis result (`types.ts`, `SuggestedEdit`):
a technical instruction plus a user-facing reason. -/
structure SuggestedEdit where
  edit : String
  reason : String
  deriving DecidableEq, Repr

/-- The analysis result (`types.ts`, `PhotoAnalysis`), in the variant with a
projected rating and structured suggested edits. -/
structure PhotoAnalysis where
  rating : ℚ
  projected_rating : ℚ
  composition : String
  lighting : String
  subject : String
  overall_comment : String
  suggested_edits : List SuggestedEdit
  deriving DecidableEq, Repr

/-- One entry of the supported aspect-ratio table of `getBestAspectRatio`
(`geminiService.ts`): the ratio string `s` and its numeric value `v`. -/
structure AspectEntry where
  s : String
  v : ℚ
  deriving DecidableEq, Repr

/-- The tail of the `supported` table of `getBestAspectRatio`; the JavaScript
`reduce` with no initial accumulator starts from the head `("1:1", 1)` and
folds over this tail. -/
def supportedTail : List AspectEntry :=
  [⟨"3:4", 3 / 4⟩, ⟨"4:3", 13333 / 10000⟩, ⟨"9:16", 9 / 16⟩, ⟨"16:9", 17778 / 10000⟩]

/-- The full `supported` table of `getBestAspectRatio`, in source order. -/
def supported : List AspectEntry := ⟨"1:1", 1⟩ :: supportedTail

/-- `Math.abs`, as an executable function on rationals. -/
def qabs (q : ℚ) : ℚ := if q < 0 then -q else q

/-- The JavaScript `reduce` of `getBestAspectRatio`: fold keeping the entry
whose `f`-value is strictly smaller than the running best (so ties keep the
earlier entry). -/
def foldMin (f : AspectEntry → ℚ) (a : AspectEntry) (l : List AspectEntry) : AspectEntry :=
  l.foldl (fun prev curr => if f curr < f prev then curr else prev) a

/-- The lower-cased space-joined concatenation of the edit instruction
strings: `edits.map(e => e.edit.toLowerCase()).join(' ')`. -/
def combinedEditsText (edits : List SuggestedEdit) : List Char :=
  List.intercalate [' '] (edits.map (fun e => e.edit.data.map Char.toLower))

/-- The body of `getBestAspectRatio` after the combined instruction text has
been computed: the keyword checks in source order, then the closest-entry
fallback over the `supported` table. -/
def pickRatio (ratio : ℚ) (combined : List Char) : String :=
  if occursIn (("16:9").data) combined then ("16:9")
  else if occursIn (("9:16").data) combined then ("9:16")
  else if occursIn (("4:3").data) combined then ("4:3")
  else if occursIn (("3:4").data) combined then ("3:4")
  else if occursIn (("1:1").data) combined || occursIn (("square").data) combined then ("1:1")
  else (foldMin (fun e => qabs (e.v - ratio)) ⟨"1:1", 1⟩ supportedTail).s

/-- `getBestAspectRatio(w, h, edits)` from `geminiService.ts`. -/
def getBestAspectRatio (w h : ℚ) (edits : List SuggestedEdit) : String :=
  pickRatio (w / h) (combinedEditsText edits)

/-- Whether the combined instruction text contains any of the six ratio
keywords checked by `getBestAspectRatio`. -/
def hasRatioKeyword (combined : List Char) : Bool :=
  occursIn (("16:9").data) combined || occursIn (("9:16").data) combined ||
  occursIn (("4:3").data) combined || occursIn (("3:4").data) combined ||
  occursIn (("1:1").data) combined || occursIn (("square").data) combined

/-- The first ratio keyword, in the source's priority order
`16:9, 9:16, 4:3, 3:4, 1:1, square`, that occurs in the combined instruction
text, mapped to the ratio string it selects (the keyword `square` selects
`"1:1"`); `none` when no keyword occurs. -/
def firstRatioToken (combined : List Char) : Option String :=
  if occursIn (("16:9").data) combined then some ("16:9")
  else if occursIn (("9:16").data) combined then some ("9:16")
  else if occursIn (("4:3").data) combined then some ("4:3")
  else if occursIn (("3:4").data) combined then some ("3:4")
  else if occursIn (("1:1").data) combined then some ("1:1")
  else if occursIn (("square").data) combined then some ("1:1")
  else none

/-- A parsed JSON value, the domain of the response shape validation in
`analyzeImage` (`geminiService.ts`). -/
inductive JValue where
  | jnull : JValue
  | jbool : Bool → JValue
  | jnum : ℚ → JValue
  | jstr : String → JValue
  | jarr : List JValue → JValue
  | jobj : List (String × JValue) → JValue

/-- JavaScript property access `parsedJson.key`: `none` models `undefined`
(non-object receiver or absent key). -/
def jfield (v : JValue) (k : String) : Option JValue :=
  match v with
  | .jobj fs => fs.lookup k
  | _ => none

/-- `typeof x === 'number'` applied to a property access result. -/
def isNumberJ : Option JValue → Bool
  | some (.jnum _) => true
  | _ => false

/-- `typeof x === 'string'` applied to a property access result. -/
def isStringJ : Option JValue → Bool
  | some (.jstr _) => true
  | _ => false

/-- `Array.isArray(x)` applied to a property access result. -/
def isArrayJ : Option JValue → Bool
  | some (.jarr _) => true
  | _ => false

/-- The combined shape condition of the type-validation `if` in
`analyzeImage` (`geminiService.ts` lines 100-110), negated: `true` means the
parsed JSON passes every check. -/
def validateAnalysisShape (v : JValue) : Bool :=
  isNumberJ (jfield v ("rating")) &&
  isNumberJ (jfield v ("projected_rating")) &&
  isStringJ (jfield v ("composition")) &&
  isStringJ (jfield v ("lighting")) &&
  isStringJ (jfield v ("subject")) &&
  isStringJ (jfield v ("overall_comment")) &&
  isArrayJ (jfield v ("suggested_edits"))

/-- The single error message thrown by the shape validation. -/
def genericValidationMsg : String :=
  "API response does not match the expected PhotoAnalysis structure."

/-- The shape validation of `analyzeImage`: the parsed JSON is returned
unchanged when every check passes, otherwise the one generic validation
error is thrown. -/
def validateAnalysis (v : JValue) : Except String JValue :=
  if validateAnalysisShape v then Except.ok v
  else Except.error genericValidationMsg

/-- A selected file: name plus an opaque payload identifying its bytes
(`File` objects held in the `selectedFile` state). -/
structure FileAsset where
  name : String
  payload : String
  deriving DecidableEq, Repr

/-- The component state of `App` (the eight `useState` hooks). -/
structure AppState where
  selectedFile : Option FileAsset
  previewUrl : Option String
  analysisResult : Option PhotoAnalysis
  isLoadingAnalysis : Bool
  analysisError : Option String
  isEditing : Bool
  editedImage : Option String
  editError : Option String
  deriving DecidableEq, Repr

/-- The initial `App` state: every hook starts at `null` / `false`. -/
def initialAppState : AppState :=
  ⟨none, none, none, false, none, false, none, none⟩

/-- An external request issued by a handler, tagged with the payload it was
issued for. -/
inductive ExtRequest where
  | analyzeReq : String → ExtRequest
  | editReq : String → ExtRequest
  | reanalyzeReq : String → ExtRequest
  deriving DecidableEq, Repr

/-- `URL.createObjectURL(file)`, modelled as an injective tagging of the
file payload. -/
def objectUrlOf (f : FileAsset) : String := "blob:" ++ f.payload

/-- `handleImageSelect(file)` from `App`: clears analysis result, analysis
error, edited image and edit error, then either installs the new file and a
fresh preview URL or clears both.  Purely synchronous; note that it does
not touch `isLoadingAnalysis` or `isEditing`. -/
def handleImageSelect (file : Option FileAsset) (s : AppState) : AppState :=
  let s0 := { s with analysisResult := none, analysisError := none,
                     editedImage := none, editError := none }
  match file with
  | some f => { s0 with selectedFile := some f, previewUrl := some (objectUrlOf f) }
  | none => { s0 with selectedFile := none, previewUrl := none }

/-- The synchronous part of `handleAnalyzeClick`: with no selected file it
only records the precondition message and issues nothing; otherwise it
enters the loading state, clears previous results, and issues one analysis
request for the selected file's bytes. -/
def handleAnalyzeClickStart (s : AppState) : AppState × Option ExtRequest :=
  match s.selectedFile with
  | none => ({ s with analysisError := some ("Please select an image file first.") }, none)
  | some f =>
      ({ s with isLoadingAnalysis := true, analysisError := none,
                analysisResult := none, editedImage := none },
       some (.analyzeReq f.payload))

/-- The continuation of `handleAnalyzeClick` run when its request settles.
It is a closure over the component setters: it installs the result (or the
error message) into whatever state is current at resolution time, with no
staleness check, and always clears the loading flag. -/
def handleAnalyzeClickResolve (outcome : Except String PhotoAnalysis) (s : AppState) : AppState :=
  match outcome with
  | .ok r => { s with analysisResult := some r, isLoadingAnalysis := false }
  | .error m => { s with analysisError := some m, isLoadingAnalysis := false }

/-- The synchronous part of `handleEditClick`: rejected with no state change
and no request unless both a selected file and an analysis are present;
otherwise enters the editing state and issues one edit request. -/
def handleEditClickStart (s : AppState) : AppState × Option ExtRequest :=
  match s.selectedFile, s.analysisResult with
  | some f, some _ =>
      ({ s with isEditing := true, editError := none }, some (.editReq f.payload))
  | _, _ => (s, none)

/-- The continuation of `handleEditClick` run when its request settles. -/
def handleEditClickResolve (outcome : Except String String) (s : AppState) : AppState :=
  match outcome with
  | .ok d => { s with editedImage := some ("data:image/png;base64," ++ d), isEditing := false }
  | .error m => { s with editError := some m, isEditing := false }

/-- The synchronous part of `handleReanalyzeEdited`: a no-op without an
edited image; otherwise it enters the loading state, clears the previous
analysis, the edited-image comparison and any edit error, installs the
edited image as the new source (a fresh `File` named `improved-photo.png`
built from its bytes, and the edited data URL as the preview), and issues
one analysis request for it.  The data-URL fetch and `File` construction
are local conversions collapsed into this synchronous part. -/
def handleReanalyzeEditedStart (s : AppState) : AppState × Option ExtRequest :=
  match s.editedImage with
  | none => (s, none)
  | some src =>
      ({ s with isLoadingAnalysis := true, analysisResult := none, analysisError := none,
                editedImage := none, isEditing := false, editError := none,
                selectedFile := some ⟨"improved-photo.png", src⟩,
                previewUrl := some src },
       some (.reanalyzeReq src))

/-- The continuation of `handleReanalyzeEdited` run when its analysis
request settles: installs the fresh analysis, or the fixed re-analysis
failure message, and clears the loading flag. -/
def handleReanalyzeEditedResolve (outcome : Except String PhotoAnalysis) (s : AppState) : AppState :=
  match outcome with
  | .ok r => { s with analysisResult := some r, isLoadingAnalysis := false }
  | .error _ =>
      { s with analysisError := some ("Failed to re-analyze the improved image."),
               isLoadingAnalysis := false }

/-- The observable Idle view of the controller: nothing loading or editing,
and no analysis result, analysis error, edited image or edit error held. -/
def isIdleView (s : AppState) : Bool :=
  !s.isLoadingAnalysis && !s.isEditing && s.analysisResult.isNone &&
  s.analysisError.isNone && s.editedImage.isNone && s.editError.isNone

/-- The gesture state of `ComparisonView`: reveal slider position, zoom
scale and pan offset. -/
structure GestureState where
  sliderPosition : ℚ
  scale : ℚ
  panX : ℚ
  panY : ℚ
  deriving DecidableEq, Repr

/-- `handleZoomIn` from `ComparisonView`: `setScale(s => Math.min(s * 1.5, 8))`. -/
def handleZoomIn (g : GestureState) : GestureState :=
  { g with scale := min (g.scale * (3 / 2)) 8 }

/-- `handleZoomOut` from `ComparisonView`: divide the scale by 1.5; when the
result falls below the 1.1 threshold, snap the scale to exactly 1 and reset
the pan to the origin. -/
def handleZoomOut (g : GestureState) : GestureState :=
  let newScale := g.scale / (3 / 2)
  if newScale < 11 / 10 then { g with scale := 1, panX := 0, panY := 0 }
  else { g with scale := newScale }

/-- `handleReset` from `ComparisonView`. -/
def handleReset (g : GestureState) : GestureState :=
  { g with scale := 1, panX := 0, panY := 0, sliderPosition := 50 }

/-- `updateSliderPosition(clientX)` from `ComparisonView`, with the container
geometry `(left, width)` passed explicitly: the pointer's horizontal
fraction across the container, times 100, clamped to `[0, 100]`. -/
def updateSliderPosition (clientX left width : ℚ) (g : GestureState) : GestureState :=
  { g with sliderPosition := max 0 (min 100 (((clientX - left) / width) * 100)) }

/-- The fold of `getBestAspectRatio` returns the first minimizer: the input
list splits around the result, every entry before it has a strictly larger
`f`-value, and every entry after it has a larger-or-equal `f`-value. -/
theorem foldMin_firstMin (f : AspectEntry → ℚ) :
    ∀ (l : List AspectEntry) (a : AspectEntry),
    ∃ l₁ l₂, a :: l = l₁ ++ foldMin f a l :: l₂ ∧
      (∀ y ∈ l₁, f (foldMin f a l) < f y) ∧
      (∀ y ∈ l₂, f (foldMin f a l) ≤ f y) := by
  intro l
  induction l with
  | nil =>
    intro a
    exact ⟨[], [], rfl, by simp, by simp⟩
  | cons b t ih =>
    intro a
    by_cases hb : f b < f a
    · have hstep : foldMin f a (b :: t) = foldMin f b t := by
        simp [foldMin, List.foldl_cons, hb]
      rcases ih b with ⟨l₁, l₂, heq, h₁, h₂⟩
      rw [hstep]
      set r := foldMin f b t with hr
      cases l₁ with
      | nil =>
        simp only [List.nil_append] at heq
        injection heq with hres hl2
        refine ⟨[a], l₂, ?_, ?_, ?_⟩
        · rw [← hres, ← hl2]; rfl
        · intro y hy
          simp only [List.mem_singleton] at hy
          subst hy
          rw [← hres]; exact hb
        · exact h₂
      | cons c l₁' =>
        simp only [List.cons_append] at heq
        injection heq with hbc ht
        have hfb : f (foldMin f b t) < f b := by
          have hc := h₁ c (List.mem_cons_self c l₁')
          rw [← hbc] at hc; exact hc
        refine ⟨a :: c :: l₁', l₂, ?_, ?_, ?_⟩
        · rw [ht, hbc]; rfl
        · intro y hy
          rcases List.mem_cons.mp hy with rfl | hy'
          · exact lt_trans hfb hb
          · exact h₁ y hy'
        · exact h₂
    · have hab : f a ≤ f b := le_of_not_lt hb
      have hstep : foldMin f a (b :: t) = foldMin f a t := by
        simp [foldMin, List.foldl_cons, hb]
      rcases ih a with ⟨l₁, l₂, heq, h₁, h₂⟩
      rw [hstep]
      set r := foldMin f a t with hr
      cases l₁ with
      | nil =>
        simp only [List.nil_append] at heq
        injection heq with hres hl2
        refine ⟨[], b :: t, ?_, ?_, ?_⟩
        · rw [← hres]; rfl
        · intro y hy
          simp at hy
        · intro y hy
          rcases List.mem_cons.mp hy with rfl | hy'
          · rw [← hres]; exact hab
          · exact h₂ y (hl2 ▸ hy')
      | cons c l₁' =>
        simp only [List.cons_append] at heq
        injection heq with hac ht
        have hfa : f (foldMin f a t) < f a := by
          have hc := h₁ c (List.mem_cons_self c l₁')
          rw [← hac] at hc; exact hc
        refine ⟨a :: b :: l₁', l₂, ?_, ?_, ?_⟩
        · rw [ht]; rfl
        · intro y hy
          rcases List.mem_cons.mp hy with rfl | hy'
          · exact hfa
          · rcases List.mem_cons.mp hy' with rfl | hy''
            · exact lt_of_lt_of_le hfa hab
            · exact h₁ y (List.mem_cons_of_mem c hy'')
        · exact h₂

/-- `qabs` agrees with the mathematical absolute value on `ℚ`. -/
theorem qabs_eq_abs (q : ℚ) : qabs q = |q| := by
  unfold qabs
  split_ifs with h
  · exact (abs_of_neg h).symm
  · exact (abs_of_nonneg (le_of_not_lt h)).symm

/-- Claim C2: with positive width and height and no ratio keyword in the
lower-cased concatenation of the edit instructions, `getBestAspectRatio`
returns the entry of the fixed `supported` table whose value has the
smallest absolute difference from `width / height`, ties resolving to the
entry listed earlier in table order (every earlier entry is strictly worse,
every later entry no better); in particular it returns `"16:9"` for
1920x1080 and `"1:1"` for 1000x1000. -/
theorem aspect_fallback_first_minimizer :
    (∀ (w h : ℚ) (edits : List SuggestedEdit), 0 < w → 0 < h →
      hasRatioKeyword (combinedEditsText edits) = false →
      ∃ e l₁ l₂, getBestAspectRatio w h edits = e.s ∧
        supported = l₁ ++ e :: l₂ ∧
        (∀ y ∈ l₁, |e.v - w / h| < |y.v - w / h|) ∧
        (∀ y ∈ l₂, |e.v - w / h| ≤ |y.v - w / h|)) ∧
    getBestAspectRatio 1920 1080 [] = ("16:9") ∧
    getBestAspectRatio 1000 1000 [] = ("1:1") := by
  refine ⟨?_, ?_, ?_⟩
  · intro w h edits hw hh hk
    simp only [hasRatioKeyword, Bool.or_eq_false_iff] at hk
    obtain ⟨⟨⟨⟨⟨h1, h2⟩, h3⟩, h4⟩, h5⟩, h6⟩ := hk
    obtain ⟨l₁, l₂, heq, hlt, hle⟩ :=
      foldMin_firstMin (fun e => qabs (e.v - w / h)) supportedTail ⟨"1:1", 1⟩
    refine ⟨foldMin (fun e => qabs (e.v - w / h)) ⟨"1:1", 1⟩ supportedTail, l₁, l₂, ?_, ?_, ?_, ?_⟩
    · simp [getBestAspectRatio, pickRatio, h1, h2, h3, h4, h5, h6]
    · exact heq
    · intro y hy
      have hy' := hlt y hy
      simpa [qabs_eq_abs] using hy'
    · intro y hy
      have hy' := hle y hy
      simpa [qabs_eq_abs] using hy'
  · have hc : combinedEditsText [] = [] := rfl
    have h1 : occursIn (("16:9").data) [] = false := by decide
    have h2 : occursIn (("9:16").data) [] = false := by decide
    have h3 : occursIn (("4:3").data) [] = false := by decide
    have h4 : occursIn (("3:4").data) [] = false := by decide
    have h5 : occursIn (("1:1").data) [] = false := by decide
    have h6 : occursIn (("square").data) [] = false := by decide
    norm_num [getBestAspectRatio, pickRatio, hc, h1, h2, h3, h4, h5, h6,
      foldMin, supportedTail, qabs, List.foldl]
  · have hc : combinedEditsText [] = [] := rfl
    have h1 : occursIn (("16:9").data) [] = false := by decide
    have h2 : occursIn (("9:16").data) [] = false := by decide
    have h3 : occursIn (("4:3").data) [] = false := by decide
    have h4 : occursIn (("3:4").data) [] = false := by decide
    have h5 : occursIn (("1:1").data) [] = false := by decide
    have h6 : occursIn (("square").data) [] = false := by decide
    norm_num [getBestAspectRatio, pickRatio, hc, h1, h2, h3, h4, h5, h6,
      foldMin, supportedTail, qabs, List.foldl]

/-- Witness for claim C2, instantiating the universal part at
width 1920, height 1080 and no edit instructions. -/
theorem aspect_fallback_first_minimizer_witness :
    0 < (1920 : ℚ) ∧ 0 < (1080 : ℚ) ∧
    hasRatioKeyword (combinedEditsText []) = false ∧
    (∃ e l₁ l₂, getBestAspectRatio 1920 1080 [] = e.s ∧
      supported = l₁ ++ e :: l₂ ∧
      (∀ y ∈ l₁, |e.v - 1920 / 1080| < |y.v - 1920 / 1080|) ∧
      (∀ y ∈ l₂, |e.v - 1920 / 1080| ≤ |y.v - 1920 / 1080|)) :=
  ⟨by norm_num, by norm_num, by decide,
    aspect_fallback_first_minimizer.1 1920 1080 [] (by norm_num) (by norm_num) (by decide)⟩

/-- Claim C3: whenever the lower-cased concatenation of the edit
instructions contains a ratio keyword, `getBestAspectRatio` returns the
ratio selected by the first keyword, in the priority order
`16:9, 9:16, 4:3, 3:4, 1:1, square`, that occurs in it (the keyword
`square` selecting `"1:1"`), regardless of the numeric width/height ratio;
in particular a `9:16` crop instruction forces `"9:16"` on a 1920x1080
image. -/
theorem aspect_keyword_override :
    (∀ (w h : ℚ) (edits : List SuggestedEdit) (t : String),
      firstRatioToken (combinedEditsText edits) = some t →
      getBestAspectRatio w h edits = t) ∧
    getBestAspectRatio 1920 1080 [⟨"Crop to 9:16 for mobile", "fit a vertical format"⟩]
      = ("9:16") := by
  constructor
  · intro w h edits t hf
    simp only [firstRatioToken] at hf
    simp only [getBestAspectRatio, pickRatio]
    split_ifs at hf ⊢ <;> simp_all
  · decide

/-- Witness for claim C3 at a 9:16 crop instruction, with square 500x500
geometry to show that the keyword overrides the numeric ratio. -/
theorem aspect_keyword_override_witness :
    firstRatioToken (combinedEditsText [⟨"Crop to 9:16 for mobile", "fit a vertical format"⟩])
      = some ("9:16") ∧
    getBestAspectRatio 500 500 [⟨"Crop to 9:16 for mobile", "fit a vertical format"⟩]
      = ("9:16") :=
  ⟨by decide,
    aspect_keyword_override.1 500 500 [⟨"Crop to 9:16 for mobile", "fit a vertical format"⟩]
      ("9:16") (by decide)⟩

/-- Claim C8: `handleZoomIn` sets the scale to `min (scale * 1.5) 8`;
`handleZoomOut` divides the scale by 1.5 and, whenever the result falls
below the 1.1 threshold, snaps the scale to exactly 1 and the pan to the
origin; starting from any scale in `[1, 8]` both operations keep the scale
in `[1, 8]`; in particular zooming out at scale 1.05 yields scale 1 and
pan (0, 0). -/
theorem zoom_step_and_snap :
    (∀ g : GestureState, 1 ≤ g.scale → g.scale ≤ 8 →
      (handleZoomIn g).scale = min (g.scale * (3 / 2)) 8 ∧
      1 ≤ (handleZoomIn g).scale ∧ (handleZoomIn g).scale ≤ 8 ∧
      (g.scale / (3 / 2) < 11 / 10 →
        (handleZoomOut g).scale = 1 ∧ (handleZoomOut g).panX = 0 ∧
        (handleZoomOut g).panY = 0) ∧
      (¬ g.scale / (3 / 2) < 11 / 10 →
        (handleZoomOut g).scale = g.scale / (3 / 2)) ∧
      1 ≤ (handleZoomOut g).scale ∧ (handleZoomOut g).scale ≤ 8) ∧
    (∀ g : GestureState, g.scale = 21 / 20 →
      (handleZoomOut g).scale = 1 ∧ (handleZoomOut g).panX = 0 ∧
      (handleZoomOut g).panY = 0) := by
  constructor
  · intro g h1 h8
    have hdiv : g.scale / (3 / 2) = g.scale * (2 / 3) := by ring
    refine ⟨rfl, ?_, ?_, ?_, ?_, ?_, ?_⟩
    · simp only [handleZoomIn]
      exact le_min (by linarith) (by norm_num)
    · simp only [handleZoomIn]
      exact min_le_right _ _
    · intro hsnap
      simp [handleZoomOut, hsnap]
    · intro hsnap
      simp [handleZoomOut, hsnap]
    · by_cases hsnap : g.scale / (3 / 2) < 11 / 10
      · simp [handleZoomOut, hsnap]
      · have hge : (11 : ℚ) / 10 ≤ g.scale / (3 / 2) := le_of_not_lt hsnap
        simp only [handleZoomOut, if_neg hsnap]
        linarith
    · by_cases hsnap : g.scale / (3 / 2) < 11 / 10
      · simp [handleZoomOut, hsnap]
      · simp only [handleZoomOut, if_neg hsnap]
        rw [hdiv]
        linarith
  · intro g hg
    have hcond : g.scale / (3 / 2) < 11 / 10 := by rw [hg]; norm_num
    simp [handleZoomOut, hcond]

/-- Witness for claim C8: the snap case at scale 1.05, and the zoom-in
bounds at scale 2. -/
theorem zoom_step_and_snap_witness :
    ((⟨50, 21 / 20, 3, 4⟩ : GestureState).scale = 21 / 20 ∧
      (handleZoomOut ⟨50, 21 / 20, 3, 4⟩).scale = 1 ∧
      (handleZoomOut ⟨50, 21 / 20, 3, 4⟩).panX = 0 ∧
      (handleZoomOut ⟨50, 21 / 20, 3, 4⟩).panY = 0) ∧
    (1 ≤ (⟨50, 2, 3, 4⟩ : GestureState).scale ∧
      (⟨50, 2, 3, 4⟩ : GestureState).scale ≤ 8 ∧
      1 ≤ (handleZoomIn ⟨50, 2, 3, 4⟩).scale ∧ (handleZoomIn ⟨50, 2, 3, 4⟩).scale ≤ 8) :=
  ⟨⟨rfl, zoom_step_and_snap.2 ⟨50, 21 / 20, 3, 4⟩ rfl⟩,
   ⟨by norm_num, by norm_num,
    (zoom_step_and_snap.1 ⟨50, 2, 3, 4⟩ (by norm_num) (by norm_num)).2.1,
    (zoom_step_and_snap.1 ⟨50, 2, 3, 4⟩ (by norm_num) (by norm_num)).2.2.1⟩⟩

/-- Claim C9: for every pointer x-coordinate and container geometry,
`updateSliderPosition` sets the slider position to the pointer's horizontal
fraction across the container, times 100, clamped to `[0, 100]`: the result
always lies in `[0, 100]`, a pointer at or beyond the right edge gives
exactly 100, and a pointer at or beyond the left edge gives exactly 0. -/
theorem slider_clamp_invariant :
    ∀ (g : GestureState) (clientX left width : ℚ),
      (0 ≤ (updateSliderPosition clientX left width g).sliderPosition ∧
        (updateSliderPosition clientX left width g).sliderPosition ≤ 100) ∧
      (0 < width → left + width ≤ clientX →
        (updateSliderPosition clientX left width g).sliderPosition = 100) ∧
      (0 < width → clientX ≤ left →
        (updateSliderPosition clientX left width g).sliderPosition = 0) := by
  intro g x l w
  simp only [updateSliderPosition]
  refine ⟨⟨le_max_left _ _, max_le (by norm_num) (min_le_left _ _)⟩, ?_, ?_⟩
  · intro hw hx
    have h1 : (1 : ℚ) ≤ (x - l) / w := by
      rw [le_div_iff₀ hw]
      linarith
    have h100 : (100 : ℚ) ≤ (x - l) / w * 100 := by
      have := mul_le_mul_of_nonneg_right h1 (by norm_num : (0 : ℚ) ≤ 100)
      linarith
    rw [min_eq_left h100, max_eq_right (by norm_num : (0 : ℚ) ≤ 100)]
  · intro hw hx
    have h0 : (x - l) / w ≤ 0 :=
      div_nonpos_iff.mpr (Or.inr ⟨by linarith, by linarith⟩)
    have ht : (x - l) / w * 100 ≤ 0 := by
      have := mul_le_mul_of_nonneg_right h0 (by norm_num : (0 : ℚ) ≤ 100)
      linarith
    rw [min_eq_right (by linarith : (x - l) / w * 100 ≤ 100), max_eq_left ht]

/-- Witness for claim C9: a container of width 100 at the origin, a pointer
at x = 500 far beyond the right edge, and a pointer at x = -3 beyond the
left edge. -/
theorem slider_clamp_invariant_witness :
    (0 < (100 : ℚ) ∧ (0 : ℚ) + 100 ≤ 500 ∧
      (updateSliderPosition 500 0 100 ⟨50, 1, 0, 0⟩).sliderPosition = 100) ∧
    (0 < (100 : ℚ) ∧ (-3 : ℚ) ≤ 0 ∧
      (updateSliderPosition (-3) 0 100 ⟨50, 1, 0, 0⟩).sliderPosition = 0) :=
  ⟨⟨by norm_num, by norm_num,
      (slider_clamp_invariant ⟨50, 1, 0, 0⟩ 500 0 100).2.1 (by norm_num) (by norm_num)⟩,
   ⟨by norm_num, by norm_num,
      (slider_clamp_invariant ⟨50, 1, 0, 0⟩ (-3) 0 100).2.2 (by norm_num) (by norm_num)⟩⟩

/-- A raw response missing the `suggested_edits` field but otherwise
well-formed. -/
def missingEditsRaw : JValue :=
  .jobj [("rating", .jnum 7), ("projected_rating", .jnum 8),
         ("composition", .jstr "balanced framing"), ("lighting", .jstr "soft light"),
         ("subject", .jstr "sharp subject"), ("overall_comment", .jstr "solid work")]

/-- A raw response whose `rating` is a string and whose remaining fields are
all well-formed, so the rating check is the only violated one. -/
def stringRatingRaw : JValue :=
  .jobj [("rating", .jstr "7"), ("projected_rating", .jnum 8),
         ("composition", .jstr "balanced framing"), ("lighting", .jstr "soft light"),
         ("subject", .jstr "sharp subject"), ("overall_comment", .jstr "solid work"),
         ("suggested_edits", .jarr [.jstr "boost contrast"])]

/-- A minimal well-formed raw response with exactly 3 suggested edits. -/
def minimalThreeEditsRaw : JValue :=
  .jobj [("rating", .jnum 7), ("projected_rating", .jnum 8),
         ("composition", .jstr "balanced framing"), ("lighting", .jstr "soft light"),
         ("subject", .jstr "sharp subject"), ("overall_comment", .jstr "solid work"),
         ("suggested_edits",
          .jarr [.jobj [("edit", .jstr "boost contrast"), ("reason", .jstr "depth")],
                 .jobj [("edit", .jstr "crop tighter"), ("reason", .jstr "focus")],
                 .jobj [("edit", .jstr "warm white balance"), ("reason", .jstr "mood")]])]

/-- A well-typed raw response with an empty `suggested_edits` array, a
rating of 42 (outside 1-10) and a projected rating below the rating. -/
def extremeRaw : JValue :=
  .jobj [("rating", .jnum 42), ("projected_rating", .jnum 1),
         ("composition", .jstr "balanced framing"), ("lighting", .jstr "soft light"),
         ("subject", .jstr "sharp subject"), ("overall_comment", .jstr "solid work"),
         ("suggested_edits", .jarr [])]

/-- Counterexample to claim C6: on a raw structure whose only violated
check is the `rating` one, validation fails, but the error message is the
fixed generic text, which does not contain the offending field name
`rating` — so the failure does not name the offending field. -/
theorem validator_message_counterexample :
    validateAnalysis stringRatingRaw = Except.error genericValidationMsg ∧
    isNumberJ (jfield stringRatingRaw ("rating")) = false ∧
    isNumberJ (jfield stringRatingRaw ("projected_rating")) = true ∧
    isStringJ (jfield stringRatingRaw ("composition")) = true ∧
    isStringJ (jfield stringRatingRaw ("lighting")) = true ∧
    isStringJ (jfield stringRatingRaw ("subject")) = true ∧
    isStringJ (jfield stringRatingRaw ("overall_comment")) = true ∧
    isArrayJ (jfield stringRatingRaw ("suggested_edits")) = true ∧
    occursIn (("rating").data) (genericValidationMsg.data) = false :=
  ⟨rfl, rfl, rfl, rfl, rfl, rfl, rfl, rfl, by decide⟩

/-- Claim C6 as amended: every raw structure violating one of the ordered
shape checks fails validation, but with the single fixed generic message,
which names none of the seven checked fields. -/
theorem validator_generic_message :
    (∀ v : JValue, validateAnalysisShape v = false →
      validateAnalysis v = Except.error genericValidationMsg) ∧
    occursIn (("rating").data) (genericValidationMsg.data) = false ∧
    occursIn (("projected_rating").data) (genericValidationMsg.data) = false ∧
    occursIn (("composition").data) (genericValidationMsg.data) = false ∧
    occursIn (("lighting").data) (genericValidationMsg.data) = false ∧
    occursIn (("subject").data) (genericValidationMsg.data) = false ∧
    occursIn (("overall_comment").data) (genericValidationMsg.data) = false ∧
    occursIn (("suggested_edits").data) (genericValidationMsg.data) = false := by
  refine ⟨?_, by decide, by decide, by decide, by decide, by decide, by decide, by decide⟩
  intro v hv
  simp [validateAnalysis, hv]

/-- Witness for the amended claim C6, at the structure missing
`suggested_edits`. -/
theorem validator_generic_message_witness :
    validateAnalysisShape missingEditsRaw = false ∧
    validateAnalysis missingEditsRaw = Except.error genericValidationMsg :=
  ⟨rfl, validator_generic_message.1 missingEditsRaw rfl⟩

/-- Claim C7: validation rejects a structure missing `suggested_edits` and
one whose `rating` is a string; it accepts every structure whose `rating`
and `projected_rating` are numeric, whose four commentary fields are text
and whose `suggested_edits` is an array — with no constraint on the array
length, the 1-10 rating range, or `projected_rating ≥ rating`, as the
acceptance of `extremeRaw` (empty edits, rating 42, projected rating 1)
shows. -/
theorem validator_acceptance_set :
    validateAnalysis missingEditsRaw = Except.error genericValidationMsg ∧
    validateAnalysis stringRatingRaw = Except.error genericValidationMsg ∧
    (∀ v : JValue,
      isNumberJ (jfield v ("rating")) = true →
      isNumberJ (jfield v ("projected_rating")) = true →
      isStringJ (jfield v ("composition")) = true →
      isStringJ (jfield v ("lighting")) = true →
      isStringJ (jfield v ("subject")) = true →
      isStringJ (jfield v ("overall_comment")) = true →
      isArrayJ (jfield v ("suggested_edits")) = true →
      validateAnalysis v = Except.ok v) ∧
    validateAnalysis extremeRaw = Except.ok extremeRaw := by
  refine ⟨rfl, rfl, ?_, rfl⟩
  intro v h1 h2 h3 h4 h5 h6 h7
  simp [validateAnalysis, validateAnalysisShape, h1, h2, h3, h4, h5, h6, h7]

/-- Witness for claim C7: the minimal well-formed structure with exactly 3
edits is accepted, through the universal acceptance part. -/
theorem validator_acceptance_set_witness :
    isNumberJ (jfield minimalThreeEditsRaw ("rating")) = true ∧
    isNumberJ (jfield minimalThreeEditsRaw ("projected_rating")) = true ∧
    isStringJ (jfield minimalThreeEditsRaw ("composition")) = true ∧
    isStringJ (jfield minimalThreeEditsRaw ("lighting")) = true ∧
    isStringJ (jfield minimalThreeEditsRaw ("subject")) = true ∧
    isStringJ (jfield minimalThreeEditsRaw ("overall_comment")) = true ∧
    isArrayJ (jfield minimalThreeEditsRaw ("suggested_edits")) = true ∧
    validateAnalysis minimalThreeEditsRaw = Except.ok minimalThreeEditsRaw :=
  ⟨rfl, rfl, rfl, rfl, rfl, rfl, rfl,
   validator_acceptance_set.2.2.1 minimalThreeEditsRaw rfl rfl rfl rfl rfl rfl rfl⟩

/-- Claim C4: requesting an edit with no analysis present is rejected
synchronously — the state is returned unchanged and no external request is
issued; requesting an analysis with no selected image issues no external
request and performs no Analyzing/Editing transition (the loading and
editing flags and the analysis result are unchanged). -/
theorem precondition_rejected_without_request :
    (∀ s : AppState, s.analysisResult = none → handleEditClickStart s = (s, none)) ∧
    (∀ s : AppState, s.selectedFile = none →
      (handleAnalyzeClickStart s).2 = none ∧
      (handleAnalyzeClickStart s).1.isLoadingAnalysis = s.isLoadingAnalysis ∧
      (handleAnalyzeClickStart s).1.isEditing = s.isEditing ∧
      (handleAnalyzeClickStart s).1.analysisResult = s.analysisResult) := by
  constructor
  · intro s hs
    rcases s with ⟨sf, pu, ar, la, ae, ie, ei, ee⟩
    change ar = none at hs
    subst hs
    cases sf <;> rfl
  · intro s hs
    rcases s with ⟨sf, pu, ar, la, ae, ie, ei, ee⟩
    change sf = none at hs
    subst hs
    exact ⟨rfl, rfl, rfl, rfl⟩

/-- Witness for claim C4 at the initial state, which has neither a selected
file nor an analysis result. -/
theorem precondition_rejected_without_request_witness :
    initialAppState.analysisResult = none ∧
    handleEditClickStart initialAppState = (initialAppState, none) ∧
    initialAppState.selectedFile = none ∧
    (handleAnalyzeClickStart initialAppState).2 = none :=
  ⟨rfl, precondition_rejected_without_request.1 initialAppState rfl, rfl,
   (precondition_rejected_without_request.2 initialAppState rfl).1⟩

/-- Claim C5: on re-analysis of an edited image, the controller records the
edited image itself as the new source — immediately after the synchronous
part the preview is exactly the edited image value and the selected file is
the fresh `improved-photo.png` asset built from those same bytes, the
issued request is tagged with them, and after the successful resolution
into the Ready view the source is still the edited image and no longer the
original preview. -/
theorem reanalysis_source_is_edited_image :
    ∀ (s : AppState) (e p : String) (r : PhotoAnalysis),
      s.editedImage = some e → s.previewUrl = some p → p ≠ e →
      (handleReanalyzeEditedStart s).1.previewUrl = some e ∧
      (handleReanalyzeEditedStart s).1.selectedFile = some ⟨"improved-photo.png", e⟩ ∧
      (handleReanalyzeEditedStart s).2 = some (ExtRequest.reanalyzeReq e) ∧
      (handleReanalyzeEditedResolve (Except.ok r) (handleReanalyzeEditedStart s).1).analysisResult
        = some r ∧
      (handleReanalyzeEditedResolve (Except.ok r) (handleReanalyzeEditedStart s).1).previewUrl
        = some e ∧
      (handleReanalyzeEditedResolve (Except.ok r) (handleReanalyzeEditedStart s).1).isLoadingAnalysis
        = false ∧
      (handleReanalyzeEditedResolve (Except.ok r) (handleReanalyzeEditedStart s).1).previewUrl
        ≠ some p := by
  intro s e p r he hp hne
  rcases s with ⟨sf, pu, ar, la, ae, ie, ei, ee⟩
  change ei = some e at he
  subst he
  refine ⟨rfl, rfl, rfl, rfl, rfl, rfl, ?_⟩
  intro hc
  rw [show (handleReanalyzeEditedResolve (Except.ok r)
      (handleReanalyzeEditedStart ⟨sf, pu, ar, la, ae, ie, some e, ee⟩).1).previewUrl
    = some e from rfl] at hc
  injection hc with hc'
  exact hne hc'.symm

/-- A state in the EditReady view: an analysis and an edited image are
held, nothing is loading. -/
def editReadyState : AppState :=
  ⟨some ⟨"a.jpg", "bytesA"⟩, some ("blob:bytesA"),
   some ⟨7, 8, "balanced", "soft", "sharp", "solid", []⟩,
   false, none, false, some ("data:image/png;base64,editedbytes"), none⟩

/-- Witness for claim C5 at `editReadyState`, resolving the re-analysis
successfully. -/
theorem reanalysis_source_is_edited_image_witness :
    editReadyState.editedImage = some ("data:image/png;base64,editedbytes") ∧
    editReadyState.previewUrl = some ("blob:bytesA") ∧
    (handleReanalyzeEditedResolve (Except.ok ⟨9, 9, "better", "bright", "crisp", "great", []⟩)
      (handleReanalyzeEditedStart editReadyState).1).previewUrl
      = some ("data:image/png;base64,editedbytes") :=
  ⟨rfl, rfl,
   (reanalysis_source_is_edited_image editReadyState ("data:image/png;base64,editedbytes")
      ("blob:bytesA") ⟨9, 9, "better", "bright", "crisp", "great", []⟩
      rfl rfl (by decide)).2.2.2.2.1⟩

/-- Claim C10: re-analysis is not atomic on error — the synchronous part
already clears the edited image, the current analysis and any edit error,
and replaces the source (preview and selected file) with the edited image
before the external analysis request is issued; when that request then
fails, the controller ends in the analysis-error view with the fixed
re-analysis failure message, the edited-image comparison still discarded
and the source still replaced, so the prior EditReady state is not
restored. -/
theorem reanalysis_not_atomic_on_error :
    ∀ (s : AppState) (e m : String),
      s.editedImage = some e →
      (handleReanalyzeEditedStart s).1.editedImage = none ∧
      (handleReanalyzeEditedStart s).1.analysisResult = none ∧
      (handleReanalyzeEditedStart s).1.editError = none ∧
      (handleReanalyzeEditedStart s).1.previewUrl = some e ∧
      (handleReanalyzeEditedStart s).1.selectedFile = some ⟨"improved-photo.png", e⟩ ∧
      (handleReanalyzeEditedStart s).2 = some (ExtRequest.reanalyzeReq e) ∧
      (handleReanalyzeEditedResolve (Except.error m) (handleReanalyzeEditedStart s).1).analysisError
        = some ("Failed to re-analyze the improved image.") ∧
      (handleReanalyzeEditedResolve (Except.error m) (handleReanalyzeEditedStart s).1).editedImage
        = none ∧
      (handleReanalyzeEditedResolve (Except.error m) (handleReanalyzeEditedStart s).1).analysisResult
        = none ∧
      (handleReanalyzeEditedResolve (Except.error m) (handleReanalyzeEditedStart s).1).previewUrl
        = some e ∧
      (handleReanalyzeEditedResolve (Except.error m) (handleReanalyzeEditedStart s).1).isLoadingAnalysis
        = false := by
  intro s e m he
  rcases s with ⟨sf, pu, ar, la, ae, ie, ei, ee⟩
  change ei = some e at he
  subst he
  exact ⟨rfl, rfl, rfl, rfl, rfl, rfl, rfl, rfl, rfl, rfl, rfl⟩

/-- Witness for claim C10 at `editReadyState`, resolving the re-analysis
with a failure. -/
theorem reanalysis_not_atomic_on_error_witness :
    editReadyState.editedImage = some ("data:image/png;base64,editedbytes") ∧
    (handleReanalyzeEditedResolve (Except.error ("network down"))
      (handleReanalyzeEditedStart editReadyState).1).analysisError
      = some ("Failed to re-analyze the improved image.") :=
  ⟨rfl,
   (reanalysis_not_atomic_on_error editReadyState ("data:image/png;base64,editedbytes")
      ("network down") rfl).2.2.2.2.2.2.1⟩

/-- The first selected image of the stale-response run. -/
def fileA : FileAsset := ⟨"a.jpg", "bytesA"⟩

/-- The second selected image of the stale-response run. -/
def fileB : FileAsset := ⟨"b.jpg", "bytesB"⟩

/-- The analysis of `fileA` that resolves only after `fileB` has been
selected. -/
def staleAnalysis : PhotoAnalysis :=
  ⟨6, 7, "stale composition", "stale lighting", "stale subject", "stale overall", []⟩

/-- The state after selecting `fileA` and clicking Analyze: the analysis
request for `fileA` is in flight. -/
def analyzingAState : AppState :=
  (handleAnalyzeClickStart (handleImageSelect (some fileA) initialAppState)).1

/-- The state after selecting `fileB` while the `fileA` analysis is still
in flight. -/
def selectedBWhileAnalyzing : AppState :=
  handleImageSelect (some fileB) analyzingAState

/-- Claim C1 fails on the code: in the run select `fileA`, request
analysis, select `fileB`, then let the stale `fileA` analysis resolve
successfully, the controller does not transition to the Idle view when
`fileB` is selected (the loading flag stays set), and the stale result is
not discarded — the continuation installs it as the current analysis
result against `fileB`, leaving the controller in the Ready view rather
than Idle.  There is no request tagging anywhere in the handlers. -/
theorem stale_analysis_result_installed :
    (handleAnalyzeClickStart (handleImageSelect (some fileA) initialAppState)).2
      = some (ExtRequest.analyzeReq ("bytesA")) ∧
    selectedBWhileAnalyzing.isLoadingAnalysis = true ∧
    isIdleView selectedBWhileAnalyzing = false ∧
    selectedBWhileAnalyzing.selectedFile = some fileB ∧
    (handleAnalyzeClickResolve (Except.ok staleAnalysis) selectedBWhileAnalyzing).analysisResult
      = some staleAnalysis ∧
    (handleAnalyzeClickResolve (Except.ok staleAnalysis) selectedBWhileAnalyzing).selectedFile
      = some fileB ∧
    isIdleView (handleAnalyzeClickResolve (Except.ok staleAnalysis) selectedBWhileAnalyzing)
      = false :=
  ⟨rfl, rfl, rfl, rfl, rfl, rfl, rfl⟩
